import Mathlib

/-!
Shallow embedding of the stream-pipeline module of discord-ytdl-core
(src/index.ts).

The module has two entry points.  StreamDownloader (the exported
function, called source in the specification) validates its url
argument, builds an FFmpeg argument list from the caller's options,
pipes the downloaded input stream through an FFmpeg transcode stage and
optionally an Opus encode stage, relays a fixed set of lifecycle events
from the input stream onto the returned stream and wires teardown
handlers.  arbitraryStream does the same for a url string, an
already-open readable stream, or an in-memory buffer.

Modelling choices:
  - JavaScript values that reach a dynamic check are modelled by small
    sum types that record exactly what the check inspects (truthiness,
    typeof, Array.isArray, isNaN); a non-NaN number is carried as the
    string produced by its toString call.
  - The three streams a call can construct are named stages; pipe
    wiring, on-listeners and the returned stage are recorded in a
    Pipeline record by the entry-point functions.
  - Event propagation is a small fuelled interpreter (run) over the
    recorded listeners: emitting an event synchronously fires the
    matching listeners in registration order, depth first, exactly as a
    Node EventEmitter does; destroy marks a stage destroyed once and,
    per the Node stream contract, makes the destroyed stage emit close.
-/

namespace DYtdl

/-- Lifecycle event names.  The source keeps these as strings in the
array named evn; they are modelled as a closed enumeration plus the
stream-standard close signal and an escape constructor for any other
event name. -/
inductive EvName where
  | info
  | progress
  | abort
  | request
  | response
  | error
  | redirect
  | retry
  | reconnect
  | close
  | other (s : String)
  deriving DecidableEq

/-- The fixed lifecycle event list (const evn, src/index.ts lines 6-16). -/
def evn : List EvName :=
  [.info, .progress, .abort, .request, .response, .error, .redirect, .retry, .reconnect]

/-- The stream stages one call can construct: the input stream (ytdl
download stream, caller's readable, or the readable wrapping a buffer),
the FFmpeg transcoder, and the Opus encoder. -/
inductive Stage where
  | inputS
  | transcoder
  | opusEnc
  deriving DecidableEq

/-- What a registered listener does when its event fires.
relayAll t models (...args) => t.emit(event, ...args);
relayError t models (e) => t.emit(an error event, e), forwarding only
the first argument; destroyStages ts models () => calls to destroy on
each stage in ts, in order. -/
inductive Action where
  | relayAll (target : Stage)
  | relayError (target : Stage)
  | destroyStages (targets : List Stage)
  deriving DecidableEq

/-- One listener registration: src.on(event, action). -/
structure Handler where
  src : Stage
  event : EvName
  action : Action
  deriving DecidableEq

/-- How the input reaches the transcoder: a url read directly by FFmpeg,
a piped readable, or a one-shot readable wrapping an in-memory buffer
(Readable.from at src/index.ts line 190). -/
inductive InputWiring where
  | directUrl
  | pipedReadable
  | pipedBufferReadable (data : List Nat)
  deriving DecidableEq

/-- Everything one successful call constructs: the FFmpeg argument
list, the constructed stages, the pipe edges, the registered listeners
in registration order, the input wiring, and which stage is returned to
the caller. -/
structure Pipeline where
  args : List String
  stages : List Stage
  pipes : List (Stage × Stage)
  handlers : List Handler
  inputWiring : InputWiring
  returned : Stage
  deriving DecidableEq

/-- The value of options.seek as seen by isNaN: absent (undefined, for
which isNaN holds), NaN, or a real number carried as the string its
toString call produces. -/
inductive SeekVal where
  | absent
  | nanV
  | num (render : String)
  deriving DecidableEq

/-- The value of options.encoderArgs as seen by Array.isArray: absent,
a proper array of strings, or a malformed non-array value (a string, a
number, or some other object). -/
inductive EncoderArgsVal where
  | absent
  | list (xs : List String)
  | strV (s : String)
  | numV (n : Int)
  | objV
  deriving DecidableEq

/-- Array.isArray on the modelled encoderArgs value. -/
def EncoderArgsVal.isArray : EncoderArgsVal → Bool
  | .list _ => true
  | _ => false

/-- The value of options.fmt as seen by a typeof string test. -/
inductive FmtVal where
  | absent
  | str (s : String)
  | nonString
  deriving DecidableEq

/-- The option fields the module reads (seek, encoderArgs, fmt,
opusEncoded); opusEncoded records the truthiness of the field.  The
remaining download options are passed through to ytdl untouched and do
not affect the pipeline, so they are not modelled. -/
structure StreamConfig where
  seek : SeekVal := .absent
  encoderArgs : EncoderArgsVal := .absent
  fmt : FmtVal := .absent
  opusEncoded : Bool := false
  deriving DecidableEq

/-- A JavaScript value arriving as the url argument of
StreamDownloader: a string, null, undefined, a number, a boolean, or
some other object. -/
inductive JSValue where
  | str (s : String)
  | nullV
  | undefinedV
  | numV (n : Int)
  | boolV (b : Bool)
  | objV
  deriving DecidableEq

/-- JavaScript truthiness of the modelled value. -/
def JSValue.truthy : JSValue → Bool
  | .str s => s != ""
  | .nullV => false
  | .undefinedV => false
  | .numV n => n != 0
  | .boolV b => b
  | .objV => true

/-- Whether typeof gives the word string for the value. -/
def JSValue.isString : JSValue → Bool
  | .str _ => true
  | _ => false

/-- The word typeof produces for the value. -/
def JSValue.typeName : JSValue → String
  | .str _ => "string"
  | .nullV => "object"
  | .undefinedV => "undefined"
  | .numV _ => "number"
  | .boolV _ => "boolean"
  | .objV => "object"

/-- The two kinds of synchronous validation throw in the module:
new Error and new SyntaxError. -/
inductive JsError where
  | error (msg : String)
  | syntaxError (msg : String)
  deriving DecidableEq

/-- The output-format string: options.fmt when it is a string, else the
default s16le (src/index.ts line 64). -/
def fmtString : FmtVal → String
  | .str s => s
  | _ => "s16le"

/-- The common FFmpeg argument block (src/index.ts lines 58-69). -/
def baseFFmpegArgs (o : StreamConfig) : List String :=
  ["-analyzeduration", "0", "-loglevel", "0", "-f", fmtString o.fmt, "-ar", "48000", "-ac", "2"]

/-- The strings the seek handling contributes at the front of the list. -/
def seekStrings (o : StreamConfig) : List String :=
  match o.seek with
  | .num r => ["-ss", r]
  | _ => []

/-- The strings a well-formed encoderArgs list contributes at the end. -/
def encStrings (o : StreamConfig) : List String :=
  match o.encoderArgs with
  | .list xs => xs
  | _ => []

/-- if (not isNaN(options.seek)) FFmpegArgs.unshift(a seek flag,
options.seek.toString()) — src/index.ts lines 71-73 and 177-179. -/
def applySeek (o : StreamConfig) (l : List String) : List String :=
  match o.seek with
  | .num r => "-ss" :: r :: l
  | _ => l

/-- if (Array.isArray(options.encoderArgs)) FFmpegArgs =
FFmpegArgs.concat(options.encoderArgs) — src/index.ts lines 75-77 and
181-183. -/
def applyEncoderArgs (o : StreamConfig) (l : List String) : List String :=
  match o.encoderArgs with
  | .list xs => l ++ xs
  | _ => l

/-- The full argument list StreamDownloader hands to FFmpeg. -/
def downloaderFFmpegArgs (o : StreamConfig) : List String :=
  applyEncoderArgs o (applySeek o (baseFFmpegArgs o))

/-- The listeners the loop at src/index.ts lines 86-88 or 104-106
registers: one relay per lifecycle event name, from the input stream to
the given target. -/
def relayHandlers (target : Stage) : List Handler :=
  evn.map (fun e => ⟨.inputS, e, .relayAll target⟩)

/-- Listener registrations of the branch without Opus encoding
(src/index.ts lines 85-91), in registration order: the event relay loop
onto the transcoder (the pipe output), the input-error teardown, and
the close teardown on the returned transcoder. -/
def sourceHandlersNoOpus : List Handler :=
  relayHandlers .transcoder ++
    [⟨.inputS, .error, .destroyStages [.transcoder]⟩,
     ⟨.transcoder, .close, .destroyStages [.transcoder]⟩]

/-- Listener registrations of the Opus branch (src/index.ts lines
100-111), in registration order: the transcoder-error relay onto the
encoder, the event relay loop onto the encoder, and the close teardown
on the returned encoder which destroys the transcoder and then the
encoder. -/
def sourceHandlersOpus : List Handler :=
  ⟨.transcoder, .error, .relayError .opusEnc⟩ ::
    (relayHandlers .opusEnc ++ [⟨.opusEnc, .close, .destroyStages [.transcoder, .opusEnc]⟩])

/-- The pipeline StreamDownloader builds when opusEncoded is falsy. -/
def sdPipeNoOpus (o : StreamConfig) : Pipeline :=
  ⟨downloaderFFmpegArgs o, [.inputS, .transcoder], [(.inputS, .transcoder)],
   sourceHandlersNoOpus, .pipedReadable, .transcoder⟩

/-- The pipeline StreamDownloader builds when opusEncoded is truthy. -/
def sdPipeOpus (o : StreamConfig) : Pipeline :=
  ⟨downloaderFFmpegArgs o, [.inputS, .transcoder, .opusEnc],
   [(.inputS, .transcoder), (.transcoder, .opusEnc)],
   sourceHandlersOpus, .pipedReadable, .opusEnc⟩

/-- StreamDownloader (src/index.ts lines 46-113): validate the url,
then build the argument list, the stage chain and the listeners.  The
synchronous throws are modelled as Except.error; a returned Pipeline
means the call returned the recorded stage to the caller. -/
def streamDownloader (url : JSValue) (o : StreamConfig) : Except JsError Pipeline :=
  if url.truthy = false then
    Except.error (.error ("No input url provided"))
  else if url.isString = false then
    Except.error (.syntaxError ("input URL must be a string. Received " ++ url.typeName ++ "!"))
  else if o.opusEncoded = false then
    Except.ok (sdPipeNoOpus o)
  else
    Except.ok (sdPipeOpus o)

/-- The stream argument of arbitraryStream: a url string, an open
readable (or duplex) stream, an in-memory buffer carried as its byte
list, or a falsy non-member of the documented union (null or undefined,
or the number zero) smuggled past the type checker. -/
inductive StreamInput where
  | url (s : String)
  | readable
  | buffer (data : List Nat)
  | nullish
  | numZero
  deriving DecidableEq

/-- JavaScript truthiness of the stream argument: objects (streams and
buffers, even empty buffers) are truthy; the empty string, null,
undefined and zero are falsy. -/
def StreamInput.truthy : StreamInput → Bool
  | .url s => s != ""
  | .readable => true
  | .buffer _ => true
  | .nullish => false
  | .numZero => false

/-- The argument list arbitraryStream builds before the seek and
encoderArgs adjustments (src/index.ts lines 137-175): a url gets the
reconnect block and an input flag naming the url ahead of the common
block; a buffer gets the common block followed by an input flag reading
from standard input; any other piped input gets just the common block. -/
def arbitraryBaseArgs (input : StreamInput) (o : StreamConfig) : List String :=
  match input with
  | .url s =>
      ["-reconnect", "1", "-reconnect_streamed", "1", "-reconnect_delay_max", "5", "-i", s] ++
        baseFFmpegArgs o
  | .buffer _ => baseFFmpegArgs o ++ ["-i", "-"]
  | _ => baseFFmpegArgs o

/-- The full argument list arbitraryStream hands to FFmpeg. -/
def arbitraryFFmpegArgs (input : StreamInput) (o : StreamConfig) : List String :=
  applyEncoderArgs o (applySeek o (arbitraryBaseArgs input o))

/-- For a non-string input the code pipes it into the transcoder and
registers an error listener destroying the transcoder (src/index.ts
lines 188-194); a url input registers nothing at this point. -/
def arbitraryInputHandlers (input : StreamInput) : List Handler :=
  match input with
  | .url _ => []
  | _ => [⟨.inputS, .error, .destroyStages [.transcoder]⟩]

/-- How the input reaches the transcoder in arbitraryStream. -/
def arbitraryWiring : StreamInput → InputWiring
  | .url _ => .directUrl
  | .buffer data => .pipedBufferReadable data
  | _ => .pipedReadable

/-- Stages constructed for the given input before the Opus branch. -/
def arbitraryStages : StreamInput → List Stage
  | .url _ => [.transcoder]
  | _ => [.inputS, .transcoder]

/-- Pipe edges installed for the given input before the Opus branch. -/
def arbitraryPipes : StreamInput → List (Stage × Stage)
  | .url _ => []
  | _ => [(.inputS, .transcoder)]

/-- The pipeline arbitraryStream builds when opusEncoded is falsy
(src/index.ts lines 195-198): the transcoder is returned and its own
close destroys it. -/
def arbPipeNoOpus (input : StreamInput) (o : StreamConfig) : Pipeline :=
  ⟨arbitraryFFmpegArgs input o, arbitraryStages input, arbitraryPipes input,
   arbitraryInputHandlers input ++ [⟨.transcoder, .close, .destroyStages [.transcoder]⟩],
   arbitraryWiring input, .transcoder⟩

/-- The pipeline arbitraryStream builds when opusEncoded is truthy
(src/index.ts lines 199-210): the transcoder is piped into the Opus
encoder, the encoder is returned, and its close destroys the transcoder
and then the encoder. -/
def arbPipeOpus (input : StreamInput) (o : StreamConfig) : Pipeline :=
  ⟨arbitraryFFmpegArgs input o, arbitraryStages input ++ [.opusEnc],
   arbitraryPipes input ++ [(.transcoder, .opusEnc)],
   arbitraryInputHandlers input ++ [⟨.opusEnc, .close, .destroyStages [.transcoder, .opusEnc]⟩],
   arbitraryWiring input, .opusEnc⟩

/-- arbitraryStream (src/index.ts lines 127-211): validate truthiness
of the stream argument, then build the argument list, the stage chain
and the listeners. -/
def arbitraryStream (input : StreamInput) (o : StreamConfig) : Except JsError Pipeline :=
  if input.truthy = false then
    Except.error (.error ("No stream source provided"))
  else if o.opusEncoded = false then
    Except.ok (arbPipeNoOpus input o)
  else
    Except.ok (arbPipeOpus input o)

/-- A pending effect inside the event interpreter: an emit call or a
destroy call.  The type α is the opaque payload type of event
arguments. -/
inductive Job (α : Type) where
  | emit (s : Stage) (ev : EvName) (args : List α)
  | destroy (s : Stage)
  deriving DecidableEq

/-- One observable step: an event emitted on a stage with its
arguments, or a destroy call on a stage that was still live. -/
inductive TraceEntry (α : Type) where
  | emitted (s : Stage) (ev : EvName) (args : List α)
  | destroyed (s : Stage)
  deriving DecidableEq

/-- The effects a fired listener performs, in order. -/
def actionJobs {α : Type} (a : Action) (ev : EvName) (args : List α) : List (Job α) :=
  match a with
  | .relayAll t => [.emit t ev args]
  | .relayError t => [.emit t .error (args.take 1)]
  | .destroyStages ts => ts.map .destroy

/-- Depth-first fuelled interpreter over the registered listeners.
State d is the list of already-destroyed stages.  An emit appends a
trace entry and fires the matching listeners in registration order,
their effects running before any later pending job (the synchronous
EventEmitter discipline); a destroy on a live stage marks it destroyed
and, per the Node stream contract, makes the stage emit close; a
destroy on an already-destroyed stage is a no-op.  Fuel only guards
termination; every concrete wiring here settles well inside the fuel
given to it. -/
def run {α : Type} (hs : List Handler) :
    Nat → List (Job α) → List Stage → List (TraceEntry α) × List Stage
  | 0, _, d => ([], d)
  | _ + 1, [], d => ([], d)
  | fuel + 1, Job.emit s ev args :: rest, d =>
      let triggered :=
        (hs.filter (fun h => h.src == s && h.event == ev)).map
          (fun h => actionJobs h.action ev args)
      let p := run hs fuel (triggered.flatten ++ rest) d
      (TraceEntry.emitted s ev args :: p.1, p.2)
  | fuel + 1, Job.destroy s :: rest, d =>
      if s ∈ d then run hs fuel rest d
      else
        let p := run hs fuel (Job.emit s .close [] :: rest) (s :: d)
        (TraceEntry.destroyed s :: p.1, p.2)

/-- Run a sequence of externally raised events on the stage src, one
after the other, collecting the full trace. -/
def runScenario {α : Type} (hs : List Handler) (src : Stage) :
    List (EvName × List α) → List Stage → List (TraceEntry α)
  | [], _ => []
  | (ev, args) :: rest, d =>
      let p := run hs 20 [Job.emit src ev args] d
      p.1 ++ runScenario hs src rest p.2

/-- The lifecycle events (names in the fixed set evn) a consumer
attached to the stage ret observes in a trace, with their arguments, in
order. -/
def observedLifecycleOn {α : Type} (ret : Stage) (tr : List (TraceEntry α)) :
    List (EvName × List α) :=
  tr.filterMap (fun t =>
    match t with
    | TraceEntry.emitted s ev args => if s == ret && evn.contains ev then some (ev, args) else none
    | TraceEntry.destroyed _ => none)

/-- An empty options object. -/
def cfgPlain : StreamConfig := ⟨.absent, .absent, .absent, false⟩

/-- An options object whose only set field is a truthy opusEncoded. -/
def cfgOpus : StreamConfig := ⟨.absent, .absent, .absent, true⟩

/-- The three reconnect flags of the url branch of arbitraryStream. -/
def reconnectFlags : List String := ["-reconnect", "-reconnect_streamed", "-reconnect_delay_max"]

/-- The options object of the arbitraryStream end-to-end scenario:
fmt set to mp3 and two encoder arguments. -/
def cfgKpop : StreamConfig :=
  ⟨.absent, .list ["-af", "asetrate=44100*1.25"], .str ("mp3"), false⟩

/-- The url of the arbitraryStream end-to-end scenario. -/
def kpopUrl : String := "https://stream/kpop"

/-- A pipeline actually produced by one of the two entry points, for
some arguments. -/
def builtPipeline (p : Pipeline) : Prop :=
  (∃ u o, streamDownloader u o = Except.ok p) ∨
    (∃ i o, arbitraryStream i o = Except.ok p)

/-! Helper lemmas about the argument builders and the entry points. -/

theorem applySeek_eq (o : StreamConfig) (l : List String) :
    applySeek o l = seekStrings o ++ l := by
  cases h : o.seek <;> simp [applySeek, seekStrings, h]

theorem applyEncoderArgs_eq (o : StreamConfig) (l : List String) :
    applyEncoderArgs o l = l ++ encStrings o := by
  cases h : o.encoderArgs <;> simp [applyEncoderArgs, encStrings, h]

theorem sd_shape (u : JSValue) (o : StreamConfig) (p : Pipeline)
    (h : streamDownloader u o = Except.ok p) :
    (o.opusEncoded = false ∧ p = sdPipeNoOpus o) ∨
      (o.opusEncoded = true ∧ p = sdPipeOpus o) := by
  by_cases h1 : u.truthy = false
  · simp [streamDownloader, h1] at h
  · by_cases h2 : u.isString = false
    · simp [streamDownloader, h1, h2] at h
    · by_cases h3 : o.opusEncoded = false
      · left
        refine ⟨h3, ?_⟩
        simp [streamDownloader, h1, h2, h3] at h
        exact h.symm
      · right
        refine ⟨by simpa using h3, ?_⟩
        simp [streamDownloader, h1, h2, h3] at h
        exact h.symm

theorem arb_shape (i : StreamInput) (o : StreamConfig) (p : Pipeline)
    (h : arbitraryStream i o = Except.ok p) :
    (o.opusEncoded = false ∧ p = arbPipeNoOpus i o) ∨
      (o.opusEncoded = true ∧ p = arbPipeOpus i o) := by
  by_cases h1 : i.truthy = false
  · simp [arbitraryStream, h1] at h
  · by_cases h3 : o.opusEncoded = false
    · left
      refine ⟨h3, ?_⟩
      simp [arbitraryStream, h1, h3] at h
      exact h.symm
    · right
      refine ⟨by simpa using h3, ?_⟩
      simp [arbitraryStream, h1, h3] at h
      exact h.symm

theorem arb_error_iff (i : StreamInput) (o : StreamConfig) :
    (∃ e, arbitraryStream i o = Except.error e) ↔ i.truthy = false := by
  constructor
  · rintro ⟨e, he⟩
    by_cases ht : i.truthy = false
    · exact ht
    · by_cases ho : o.opusEncoded = false <;> simp [arbitraryStream, ht, ho] at he
  · intro ht
    exact ⟨.error ("No stream source provided"), by simp [arbitraryStream, ht]⟩

theorem input_falsy_iff (i : StreamInput) :
    i.truthy = false ↔ (i = .nullish ∨ i = .numZero ∨ i = .url ("")) := by
  cases i <;> simp [StreamInput.truthy, bne_eq_false_iff_eq]

theorem argsWithSeek (o : StreamConfig) (r : String) (h : o.seek = .num r) (l : List String) :
    applyEncoderArgs o (applySeek o l) = "-ss" :: r :: (l ++ encStrings o) := by
  rw [applyEncoderArgs_eq]
  simp [applySeek, h]

theorem head_ss_blocks (rest : List String) (s : String) (hs : s ≠ "-ss") :
    ∀ n : Nat, ("-ss" :: rest)[n]? = some s → 0 < n := by
  intro n hn
  cases n with
  | zero =>
      simp only [List.getElem?_cons_zero, Option.some.injEq] at hn
      exact absurd hn.symm hs
  | succ n => exact Nat.succ_pos n

theorem bufArgsDecomp (data : List Nat) (o : StreamConfig) :
    arbitraryFFmpegArgs (.buffer data) o =
      (seekStrings o ++ baseFFmpegArgs o) ++ "-i" :: "-" :: encStrings o := by
  rw [arbitraryFFmpegArgs, applyEncoderArgs_eq, applySeek_eq]
  simp [arbitraryBaseArgs]

theorem observed_append {α : Type} (ret : Stage) (t1 t2 : List (TraceEntry α)) :
    observedLifecycleOn ret (t1 ++ t2) =
      observedLifecycleOn ret t1 ++ observedLifecycleOn ret t2 := by
  simp [observedLifecycleOn]

theorem relayStepNoOpus {α : Type} (ev : EvName) (hev : ev ∈ evn) (args : List α)
    (d : List Stage) :
    observedLifecycleOn .transcoder
      (run sourceHandlersNoOpus 20 [Job.emit .inputS ev args] d).1 = [(ev, args)] := by
  simp only [evn, List.mem_cons, List.not_mem_nil, or_false] at hev
  rcases hev with rfl | rfl | rfl | rfl | rfl | rfl | rfl | rfl | rfl <;>
    first
      | rfl
      | (by_cases hd : Stage.transcoder ∈ d <;>
          simp [run, sourceHandlersNoOpus, relayHandlers, evn, actionJobs,
            observedLifecycleOn, hd])

theorem relayStepOpus {α : Type} (ev : EvName) (hev : ev ∈ evn) (args : List α)
    (d : List Stage) :
    observedLifecycleOn .opusEnc
      (run sourceHandlersOpus 20 [Job.emit .inputS ev args] d).1 = [(ev, args)] := by
  simp only [evn, List.mem_cons, List.not_mem_nil, or_false] at hev
  rcases hev with rfl | rfl | rfl | rfl | rfl | rfl | rfl | rfl | rfl <;> rfl

theorem relayScenario {α : Type} (hs : List Handler) (ret : Stage)
    (step : ∀ (ev : EvName), ev ∈ evn → ∀ (args : List α) (d : List Stage),
      observedLifecycleOn ret (run hs 20 [Job.emit .inputS ev args] d).1 = [(ev, args)])
    (events : List (EvName × List α)) (hall : ∀ e ∈ events, e.1 ∈ evn) (d : List Stage) :
    observedLifecycleOn ret (runScenario hs .inputS events d) = events := by
  induction events generalizing d with
  | nil => rfl
  | cons e rest ih =>
      obtain ⟨ev, args⟩ := e
      simp only [runScenario]
      rw [observed_append, step ev (hall _ (List.mem_cons_self _ _)) args d,
        ih (fun x hx => hall x (List.mem_cons_of_mem _ hx)) _]
      rfl

/-! Claim theorems. -/

/-- C4: for every config whose seek field is a valid (non-NaN) number,
in both entry points the built argument list begins with the seek flag
followed by the decimal rendering of seek, and that pair sits strictly
before any reconnect flag and before any input flag. -/
theorem seekFlagHeadsArgs (o : StreamConfig) (r : String) (h : o.seek = .num r) :
    (downloaderFFmpegArgs o).take 2 = ["-ss", r] ∧
    (∀ i : StreamInput, (arbitraryFFmpegArgs i o).take 2 = ["-ss", r]) ∧
    (∀ n : Nat,
      ((downloaderFFmpegArgs o)[n]? = some ("-reconnect") ∨
        (downloaderFFmpegArgs o)[n]? = some ("-i")) → 0 < n) ∧
    (∀ (i : StreamInput) (n : Nat),
      ((arbitraryFFmpegArgs i o)[n]? = some ("-reconnect") ∨
        (arbitraryFFmpegArgs i o)[n]? = some ("-i")) → 0 < n) := by
  have hd : downloaderFFmpegArgs o = "-ss" :: r :: (baseFFmpegArgs o ++ encStrings o) :=
    argsWithSeek o r h (baseFFmpegArgs o)
  have ha : ∀ i : StreamInput,
      arbitraryFFmpegArgs i o = "-ss" :: r :: (arbitraryBaseArgs i o ++ encStrings o) :=
    fun i => argsWithSeek o r h (arbitraryBaseArgs i o)
  refine ⟨?_, ?_, ?_, ?_⟩
  · rw [hd]; rfl
  · intro i; rw [ha i]; rfl
  · intro n hn
    rw [hd] at hn
    rcases hn with hn | hn
    · exact head_ss_blocks _ "-reconnect" (by decide) n hn
    · exact head_ss_blocks _ "-i" (by decide) n hn
  · intro i n hn
    rw [ha i] at hn
    rcases hn with hn | hn
    · exact head_ss_blocks _ "-reconnect" (by decide) n hn
    · exact head_ss_blocks _ "-i" (by decide) n hn

/-- C4 witness: a concrete seek of 5 seconds heads both lists. -/
theorem seekFlagHeadsArgs_wit :
    (downloaderFFmpegArgs ⟨.num ("5"), .absent, .absent, false⟩).take 2 = ["-ss", "5"] ∧
    (arbitraryFFmpegArgs .readable ⟨.num ("5"), .absent, .absent, false⟩).take 2 = ["-ss", "5"] :=
  ⟨(seekFlagHeadsArgs ⟨.num ("5"), .absent, .absent, false⟩ "5" rfl).1,
   (seekFlagHeadsArgs ⟨.num ("5"), .absent, .absent, false⟩ "5" rfl).2.1 .readable⟩

/-- C5: the end-to-end arbitraryStream scenario with the kpop url, fmt
mp3 and two encoder arguments builds exactly the expected argument list
and returns the transcoder stage, with no Opus stage constructed. -/
theorem kpopScenario :
    arbitraryStream (.url kpopUrl) cfgKpop =
      Except.ok (arbPipeNoOpus (.url kpopUrl) cfgKpop) ∧
    (arbPipeNoOpus (.url kpopUrl) cfgKpop).args =
      ["-reconnect", "1", "-reconnect_streamed", "1", "-reconnect_delay_max", "5", "-i",
       "https://stream/kpop", "-analyzeduration", "0", "-loglevel", "0", "-f", "mp3",
       "-ar", "48000", "-ac", "2", "-af", "asetrate=44100*1.25"] ∧
    (arbPipeNoOpus (.url kpopUrl) cfgKpop).returned = .transcoder ∧
    Stage.opusEnc ∉ (arbPipeNoOpus (.url kpopUrl) cfgKpop).stages :=
  ⟨rfl, rfl, rfl, by decide⟩

/-- C7: for a buffer input to arbitraryStream the built argument list
contains the adjacent pair of the input flag and the stdin marker, no
reconnect flag appears (given that the caller-supplied seek rendering,
format name and encoder arguments do not themselves spell a reconnect
flag), and the buffer is wrapped into a one-shot readable that is piped
into the transcoder. -/
theorem bufferStdinInput (data : List Nat) (o : StreamConfig) (p : Pipeline)
    (h : arbitraryStream (.buffer data) o = Except.ok p)
    (hseek : ∀ f ∈ reconnectFlags, f ∉ seekStrings o)
    (henc : ∀ f ∈ reconnectFlags, f ∉ encStrings o)
    (hfmt : ∀ f ∈ reconnectFlags, f ≠ fmtString o.fmt) :
    (∃ l1 l2, p.args = l1 ++ "-i" :: "-" :: l2) ∧
    (∀ f ∈ reconnectFlags, f ∉ p.args) ∧
    p.inputWiring = InputWiring.pipedBufferReadable data ∧
    (Stage.inputS, Stage.transcoder) ∈ p.pipes := by
  have hargs : p.args = (seekStrings o ++ baseFFmpegArgs o) ++ "-i" :: "-" :: encStrings o := by
    rcases arb_shape _ _ _ h with ⟨_, rfl⟩ | ⟨_, rfl⟩ <;> exact bufArgsDecomp data o
  have hw : p.inputWiring = InputWiring.pipedBufferReadable data := by
    rcases arb_shape _ _ _ h with ⟨_, rfl⟩ | ⟨_, rfl⟩ <;> rfl
  have hp : (Stage.inputS, Stage.transcoder) ∈ p.pipes := by
    rcases arb_shape _ _ _ h with ⟨_, rfl⟩ | ⟨_, rfl⟩ <;>
      simp [arbPipeNoOpus, arbPipeOpus, arbitraryPipes]
  refine ⟨⟨_, _, hargs⟩, ?_, hw, hp⟩
  intro f hf
  have h1 := hseek f hf
  have h2 := henc f hf
  have h3 := hfmt f hf
  rw [hargs]
  simp only [reconnectFlags, List.mem_cons, List.not_mem_nil, or_false] at hf
  rcases hf with rfl | rfl | rfl <;>
    simp [List.mem_append, baseFFmpegArgs, h1, h2, h3]

/-- C7 witness: an empty buffer and an empty options object. -/
theorem bufferStdinInput_wit :
    (∃ l1 l2, (arbPipeNoOpus (.buffer []) cfgPlain).args = l1 ++ "-i" :: "-" :: l2) ∧
    (∀ f ∈ reconnectFlags, f ∉ (arbPipeNoOpus (.buffer []) cfgPlain).args) ∧
    (arbPipeNoOpus (.buffer []) cfgPlain).inputWiring = InputWiring.pipedBufferReadable [] ∧
    (Stage.inputS, Stage.transcoder) ∈ (arbPipeNoOpus (.buffer []) cfgPlain).pipes :=
  bufferStdinInput [] cfgPlain (arbPipeNoOpus (.buffer []) cfgPlain) rfl
    (by decide) (by decide) (by decide)

/-- C8: a present but non-list encoderArgs value (a string, a number,
or another object) leaves the built argument list identical to the one
built with encoderArgs omitted, in both entry points. -/
theorem nonListEncoderArgsIgnored (o : StreamConfig) (v : EncoderArgsVal)
    (hv : v.isArray = false) :
    downloaderFFmpegArgs ⟨o.seek, v, o.fmt, o.opusEncoded⟩ =
      downloaderFFmpegArgs ⟨o.seek, .absent, o.fmt, o.opusEncoded⟩ ∧
    ∀ i : StreamInput,
      arbitraryFFmpegArgs i ⟨o.seek, v, o.fmt, o.opusEncoded⟩ =
        arbitraryFFmpegArgs i ⟨o.seek, .absent, o.fmt, o.opusEncoded⟩ := by
  cases v with
  | list xs => simp [EncoderArgsVal.isArray] at hv
  | absent => exact ⟨rfl, fun _ => rfl⟩
  | strV s => exact ⟨rfl, fun _ => rfl⟩
  | numV n => exact ⟨rfl, fun _ => rfl⟩
  | objV => exact ⟨rfl, fun _ => rfl⟩

/-- C8 witness: a string-valued encoderArgs behaves as omitted. -/
theorem nonListEncoderArgsIgnored_wit :
    downloaderFFmpegArgs ⟨cfgPlain.seek, .strV ("loud"), cfgPlain.fmt, cfgPlain.opusEncoded⟩ =
      downloaderFFmpegArgs ⟨cfgPlain.seek, .absent, cfgPlain.fmt, cfgPlain.opusEncoded⟩ ∧
    arbitraryFFmpegArgs (.url ("u"))
        ⟨cfgPlain.seek, .strV ("loud"), cfgPlain.fmt, cfgPlain.opusEncoded⟩ =
      arbitraryFFmpegArgs (.url ("u"))
        ⟨cfgPlain.seek, .absent, cfgPlain.fmt, cfgPlain.opusEncoded⟩ :=
  ⟨(nonListEncoderArgsIgnored cfgPlain (.strV ("loud")) rfl).1,
   (nonListEncoderArgsIgnored cfgPlain (.strV ("loud")) rfl).2 (.url ("u"))⟩

/-- C9 (amended): a falsy or non-string url makes StreamDownloader
throw synchronously before any stage is constructed (the result is an
error and no pipeline exists), and every non-empty string url passes
validation.  The original claim said every string passes; the empty
string is a string yet falsy, so it is rejected by the first check. -/
theorem urlValidation (u : JSValue) (o : StreamConfig) :
    ((u.truthy = false ∨ u.isString = false) →
      ∃ err, streamDownloader u o = Except.error err) ∧
    (∀ s : String, u = .str s → s ≠ "" → ∃ p, streamDownloader u o = Except.ok p) := by
  constructor
  · rintro (ht | hs)
    · exact ⟨.error ("No input url provided"), by simp [streamDownloader, ht]⟩
    · by_cases ht : u.truthy = false
      · exact ⟨.error ("No input url provided"), by simp [streamDownloader, ht]⟩
      · exact ⟨.syntaxError ("input URL must be a string. Received " ++ u.typeName ++ "!"),
          by simp [streamDownloader, ht, hs]⟩
  · rintro s rfl hne
    have ht : (JSValue.str s).truthy = true := by
      simp [JSValue.truthy, hne]
    by_cases ho : o.opusEncoded = false
    · exact ⟨sdPipeNoOpus o, by simp [streamDownloader, ht, JSValue.isString, ho]⟩
    · exact ⟨sdPipeOpus o, by simp [streamDownloader, ht, JSValue.isString, ho]⟩

/-- C9 witness: null is rejected, a non-empty string is accepted. -/
theorem urlValidation_wit :
    (∃ err, streamDownloader .nullV cfgPlain = Except.error err) ∧
    (∃ p, streamDownloader (.str ("ok")) cfgPlain = Except.ok p) :=
  ⟨(urlValidation .nullV cfgPlain).1 (Or.inl rfl),
   (urlValidation (.str ("ok")) cfgPlain).2 "ok" rfl (by decide)⟩

/-- C9 counterexample: the empty string is a string, yet validation
throws on it, refuting the claim that no string url ever throws. -/
theorem urlValidationEmptyString_cex :
    (JSValue.str ("")).isString = true ∧
    streamDownloader (.str ("")) cfgPlain = Except.error (.error ("No input url provided")) :=
  ⟨rfl, rfl⟩

/-- C10: arbitraryStream rejects exactly the falsy inputs (null or
undefined, the number zero, the empty string); a zero-length buffer is
truthy, so it builds the pipeline, its argument list carries the stdin
input pair, and the empty buffer is wrapped into a one-shot readable. -/
theorem arbitraryFalsyOnly :
    (∀ (i : StreamInput) (o : StreamConfig),
      (∃ e, arbitraryStream i o = Except.error e) ↔
        (i = .nullish ∨ i = .numZero ∨ i = .url (""))) ∧
    (∀ (o : StreamConfig) (p : Pipeline), arbitraryStream (.buffer []) o = Except.ok p →
      p.inputWiring = InputWiring.pipedBufferReadable [] ∧
      ∃ l1 l2, p.args = l1 ++ "-i" :: "-" :: l2) := by
  constructor
  · intro i o
    rw [arb_error_iff]
    exact input_falsy_iff i
  · intro o p h
    rcases arb_shape _ _ _ h with ⟨_, rfl⟩ | ⟨_, rfl⟩ <;>
      exact ⟨rfl, seekStrings o ++ baseFFmpegArgs o, encStrings o, bufArgsDecomp [] o⟩

/-- C10 witness: null is rejected while the empty buffer builds a
pipeline carrying the stdin input pair. -/
theorem arbitraryFalsyOnly_wit :
    (∃ e, arbitraryStream .nullish cfgPlain = Except.error e) ∧
    ((arbPipeNoOpus (.buffer []) cfgPlain).inputWiring = InputWiring.pipedBufferReadable [] ∧
      ∃ l1 l2, (arbPipeNoOpus (.buffer []) cfgPlain).args = l1 ++ "-i" :: "-" :: l2) :=
  ⟨(arbitraryFalsyOnly.1 .nullish cfgPlain).2 (Or.inl rfl),
   arbitraryFalsyOnly.2 cfgPlain (arbPipeNoOpus (.buffer []) cfgPlain) rfl⟩

/-- C1 (amended): for the source entry point, in every configuration,
every sequence of lifecycle events raised on the source-level stage is
observed on the returned outermost stream with the same names and
arguments, in the same relative order.  The original claim also covered
arbitraryStream, which installs no relay at all (see the
counterexample), so the amendment restricts the claim to source. -/
theorem sourceRelaysLifecycle {α : Type} (u : JSValue) (o : StreamConfig) (p : Pipeline)
    (h : streamDownloader u o = Except.ok p)
    (events : List (EvName × List α)) (hall : ∀ e ∈ events, e.1 ∈ evn) :
    observedLifecycleOn p.returned (runScenario p.handlers .inputS events []) = events := by
  rcases sd_shape u o p h with ⟨_, rfl⟩ | ⟨_, rfl⟩
  · exact relayScenario sourceHandlersNoOpus .transcoder
      (fun ev hev args d => relayStepNoOpus ev hev args d) events hall []
  · exact relayScenario sourceHandlersOpus .opusEnc
      (fun ev hev args d => relayStepOpus ev hev args d) events hall []

/-- C1 witness: a concrete three-event scenario relayed through the
pipeline without Opus encoding. -/
theorem sourceRelaysLifecycle_wit :
    observedLifecycleOn (sdPipeNoOpus cfgPlain).returned
      (runScenario (α := Nat) (sdPipeNoOpus cfgPlain).handlers .inputS
        [(.info, [3]), (.progress, [1, 2]), (.error, [7])] []) =
      [(.info, [3]), (.progress, [1, 2]), (.error, [7])] :=
  sourceRelaysLifecycle (.str ("v")) cfgPlain (sdPipeNoOpus cfgPlain) rfl
    [(.info, [3]), (.progress, [1, 2]), (.error, [7])] (by decide)

/-- C1 counterexample: arbitraryStream wires no event relay, so an info
event raised on the piped input stream is not observed on the returned
stream, refuting the claim for that entry point. -/
theorem arbitraryNoRelay_cex :
    arbitraryStream .readable cfgPlain = Except.ok (arbPipeNoOpus .readable cfgPlain) ∧
    observedLifecycleOn (arbPipeNoOpus .readable cfgPlain).returned
      (runScenario (α := Nat) (arbPipeNoOpus .readable cfgPlain).handlers .inputS
        [(.info, [0])] []) = [] ∧
    ([] : List (EvName × List Nat)) ≠ [(.info, [0])] :=
  ⟨rfl, rfl, by decide⟩

/-- C2 (amended): an error on the initial input stream invokes the
transcoder's destroy in the source entry point when opusEncoded is
falsy, and in arbitraryStream for piped (stream or buffer) inputs in
every configuration; when opusEncoded is falsy the returned stream (the
transcoder itself) then observes a close.  The original claim also
covered the source entry point with opusEncoded truthy, where no such
teardown is wired (see the counterexample). -/
theorem inputErrorDestroysTranscoder :
    (∀ (e : Nat) (u : JSValue) (o : StreamConfig) (p : Pipeline),
      streamDownloader u o = Except.ok p → o.opusEncoded = false →
      TraceEntry.destroyed .transcoder ∈
        (run p.handlers 20 [Job.emit .inputS .error [e]] []).1 ∧
      TraceEntry.emitted p.returned .close [] ∈
        (run p.handlers 20 [Job.emit .inputS .error [e]] []).1) ∧
    (∀ (e : Nat) (i : StreamInput) (o : StreamConfig) (p : Pipeline),
      arbitraryStream i o = Except.ok p → (i = .readable ∨ ∃ data, i = .buffer data) →
      TraceEntry.destroyed .transcoder ∈
        (run p.handlers 20 [Job.emit .inputS .error [e]] []).1 ∧
      (o.opusEncoded = false →
        TraceEntry.emitted p.returned .close [] ∈
          (run p.handlers 20 [Job.emit .inputS .error [e]] []).1)) := by
  constructor
  · intro e u o p h ho
    rcases sd_shape u o p h with ⟨_, rfl⟩ | ⟨h1, _⟩
    · have hr : (run (α := Nat) (sdPipeNoOpus o).handlers 20
          [Job.emit .inputS .error [e]] []).1 =
            [.emitted .inputS .error [e], .emitted .transcoder .error [e],
             .destroyed .transcoder, .emitted .transcoder .close []] := rfl
      exact ⟨by rw [hr]; simp, by rw [hr]; simp [sdPipeNoOpus]⟩
    · rw [h1] at ho; simp at ho
  · intro e i o p h hi
    rcases hi with rfl | ⟨data, rfl⟩ <;> rcases arb_shape _ _ _ h with ⟨ho, rfl⟩ | ⟨ho, rfl⟩
    · have hr : (run (α := Nat) (arbPipeNoOpus .readable o).handlers 20
          [Job.emit .inputS .error [e]] []).1 =
            [.emitted .inputS .error [e], .destroyed .transcoder,
             .emitted .transcoder .close []] := rfl
      exact ⟨by rw [hr]; simp, fun _ => by rw [hr]; simp [arbPipeNoOpus]⟩
    · have hr : (run (α := Nat) (arbPipeOpus .readable o).handlers 20
          [Job.emit .inputS .error [e]] []).1 =
            [.emitted .inputS .error [e], .destroyed .transcoder,
             .emitted .transcoder .close []] := rfl
      refine ⟨by rw [hr]; simp, fun hfalse => ?_⟩
      rw [ho] at hfalse; simp at hfalse
    · have hr : (run (α := Nat) (arbPipeNoOpus (.buffer data) o).handlers 20
          [Job.emit .inputS .error [e]] []).1 =
            [.emitted .inputS .error [e], .destroyed .transcoder,
             .emitted .transcoder .close []] := rfl
      exact ⟨by rw [hr]; simp, fun _ => by rw [hr]; simp [arbPipeNoOpus]⟩
    · have hr : (run (α := Nat) (arbPipeOpus (.buffer data) o).handlers 20
          [Job.emit .inputS .error [e]] []).1 =
            [.emitted .inputS .error [e], .destroyed .transcoder,
             .emitted .transcoder .close []] := rfl
      refine ⟨by rw [hr]; simp, fun hfalse => ?_⟩
      rw [ho] at hfalse; simp at hfalse

/-- C2 witness: concrete error payload through the source pipeline
without Opus, and through the arbitrary piped pipeline with Opus. -/
theorem inputErrorDestroysTranscoder_wit :
    (TraceEntry.destroyed .transcoder ∈
      (run (α := Nat) (sdPipeNoOpus cfgPlain).handlers 20
        [Job.emit .inputS .error [9]] []).1 ∧
     TraceEntry.emitted (sdPipeNoOpus cfgPlain).returned .close [] ∈
      (run (α := Nat) (sdPipeNoOpus cfgPlain).handlers 20
        [Job.emit .inputS .error [9]] []).1) ∧
    TraceEntry.destroyed .transcoder ∈
      (run (α := Nat) (arbPipeOpus .readable cfgOpus).handlers 20
        [Job.emit .inputS .error [9]] []).1 :=
  ⟨inputErrorDestroysTranscoder.1 9 (.str ("v")) cfgPlain (sdPipeNoOpus cfgPlain) rfl rfl,
   (inputErrorDestroysTranscoder.2 9 .readable cfgOpus (arbPipeOpus .readable cfgOpus)
      rfl (Or.inl rfl)).1⟩

/-- C2 counterexample: in the source entry point with opusEncoded
truthy an input error triggers no destroy at all, refuting the claim
for that configuration. -/
theorem inputErrorOpusNoDestroy_cex :
    streamDownloader (.str ("v")) cfgOpus = Except.ok (sdPipeOpus cfgOpus) ∧
    TraceEntry.destroyed .transcoder ∉
      (run (α := Nat) (sdPipeOpus cfgOpus).handlers 20
        [Job.emit .inputS .error [0]] []).1 :=
  ⟨rfl, by decide⟩

/-- C3 (amended): in the source entry point with opusEncoded truthy, an
error raised by the Transcode Stage is relayed as an error event on the
Encode Stage.  The original claim also covered arbitraryStream, which
wires no transcoder-error relay (see the counterexample). -/
theorem transcoderErrorRelayed {α : Type} (e : α) (u : JSValue) (o : StreamConfig)
    (p : Pipeline) (h : streamDownloader u o = Except.ok p) (ho : o.opusEncoded = true) :
    TraceEntry.emitted .opusEnc .error [e] ∈
      (run p.handlers 20 [Job.emit .transcoder .error [e]] []).1 := by
  rcases sd_shape u o p h with ⟨h1, _⟩ | ⟨_, rfl⟩
  · rw [h1] at ho; simp at ho
  · have hr : (run (α := α) (sdPipeOpus o).handlers 20
        [Job.emit .transcoder .error [e]] []).1 =
          [.emitted .transcoder .error [e], .emitted .opusEnc .error [e]] := rfl
    rw [hr]; simp

/-- C3 witness: a concrete transcoder error surfaces on the encoder. -/
theorem transcoderErrorRelayed_wit :
    TraceEntry.emitted .opusEnc .error [(4 : Nat)] ∈
      (run (sdPipeOpus cfgOpus).handlers 20 [Job.emit .transcoder .error [(4 : Nat)]] []).1 :=
  transcoderErrorRelayed 4 (.str ("v")) cfgOpus (sdPipeOpus cfgOpus) rfl rfl

/-- C3 counterexample: in arbitraryStream with opusEncoded truthy a
transcoder error is never re-emitted on the encoder stage. -/
theorem transcoderErrorArbNotRelayed_cex :
    arbitraryStream (.url ("u")) cfgOpus = Except.ok (arbPipeOpus (.url ("u")) cfgOpus) ∧
    TraceEntry.emitted .opusEnc .error [(0 : Nat)] ∉
      (run (arbPipeOpus (.url ("u")) cfgOpus).handlers 20
        [Job.emit .transcoder .error [(0 : Nat)]] []).1 :=
  ⟨rfl, by decide⟩

/-- C6: when the final returned stream closes, the transcoder's destroy
is invoked, and the encoder's destroy as well whenever an Opus stage
was constructed, for every pipeline either entry point builds. -/
theorem closeDestroysStages (p : Pipeline) (h : builtPipeline p) :
    TraceEntry.destroyed .transcoder ∈
      (run (α := Nat) p.handlers 20 [Job.emit p.returned .close []] []).1 ∧
    (Stage.opusEnc ∈ p.stages →
      TraceEntry.destroyed .opusEnc ∈
        (run (α := Nat) p.handlers 20 [Job.emit p.returned .close []] []).1) := by
  rcases h with ⟨u, o, h⟩ | ⟨i, o, h⟩
  · rcases sd_shape u o p h with ⟨_, rfl⟩ | ⟨_, rfl⟩
    · have hr : (run (α := Nat) (sdPipeNoOpus o).handlers 20
          [Job.emit (sdPipeNoOpus o).returned .close []] []).1 =
            [.emitted .transcoder .close [], .destroyed .transcoder,
             .emitted .transcoder .close []] := rfl
      exact ⟨by rw [hr]; simp, fun hst => by simp [sdPipeNoOpus] at hst⟩
    · have hr : (run (α := Nat) (sdPipeOpus o).handlers 20
          [Job.emit (sdPipeOpus o).returned .close []] []).1 =
            [.emitted .opusEnc .close [], .destroyed .transcoder,
             .emitted .transcoder .close [], .destroyed .opusEnc,
             .emitted .opusEnc .close []] := rfl
      exact ⟨by rw [hr]; simp, fun _ => by rw [hr]; simp⟩
  · have hrNo : ∀ j : StreamInput, (run (α := Nat) (arbPipeNoOpus j o).handlers 20
        [Job.emit (arbPipeNoOpus j o).returned .close []] []).1 =
          [.emitted .transcoder .close [], .destroyed .transcoder,
           .emitted .transcoder .close []] := by
      intro j; cases j <;> rfl
    have hstNo : ∀ j : StreamInput, Stage.opusEnc ∉ (arbPipeNoOpus j o).stages := by
      intro j; cases j <;> simp [arbPipeNoOpus, arbitraryStages]
    have hrOp : ∀ j : StreamInput, (run (α := Nat) (arbPipeOpus j o).handlers 20
        [Job.emit (arbPipeOpus j o).returned .close []] []).1 =
          [.emitted .opusEnc .close [], .destroyed .transcoder,
           .emitted .transcoder .close [], .destroyed .opusEnc,
           .emitted .opusEnc .close []] := by
      intro j; cases j <;> rfl
    rcases arb_shape i o p h with ⟨_, rfl⟩ | ⟨_, rfl⟩
    · exact ⟨by rw [hrNo i]; simp, fun hst => absurd hst (hstNo i)⟩
    · exact ⟨by rw [hrOp i]; simp, fun _ => by rw [hrOp i]; simp⟩

/-- C6 witness: the Opus pipeline of the source entry point. -/
theorem closeDestroysStages_wit :
    TraceEntry.destroyed .transcoder ∈
      (run (α := Nat) (sdPipeOpus cfgOpus).handlers 20
        [Job.emit (sdPipeOpus cfgOpus).returned .close []] []).1 ∧
    (Stage.opusEnc ∈ (sdPipeOpus cfgOpus).stages →
      TraceEntry.destroyed .opusEnc ∈
        (run (α := Nat) (sdPipeOpus cfgOpus).handlers 20
          [Job.emit (sdPipeOpus cfgOpus).returned .close []] []).1) :=
  closeDestroysStages (sdPipeOpus cfgOpus) (Or.inl ⟨.str ("v"), cfgOpus, rfl⟩)

end DYtdl
